import Mathlib

set_option maxRecDepth 8000

namespace ARM

/-! Shallow embedding of the ai-relationship-manager core
(src/core/preprocess.py and src/core/summarizer.py).
Text is modelled as `List Char`; Python string helpers (`splitlines`,
`strip`, `lower`, substring `in`) are embedded below.  The regex
substitutions of `mask_pii` are embedded with a small backtracking
matcher over character-class quantifier items, which is exactly the
structure of the two patterns used by the source.  `json.loads` and
`json.dumps` are embedded by a strict JSON parser/serializer.
Unicode-only differences (full Unicode case folding, `\w`/`\d`
beyond ASCII, lone surrogates in `\u` escapes, float re-formatting of
numeric literals by `dumps`) are out of scope of all claims and noted
where they arise. -/

/-- Python whitespace test used by `str.strip` and by the regex class `\s`
(the ASCII part plus the common Unicode space characters). -/
def pyIsSpace (c : Char) : Bool :=
  c = ' ' || c = '\t' || c = '\n' || c = '\r' || c = '\x0b' || c = '\x0c' ||
  c = '\x1c' || c = '\x1d' || c = '\x1e' || c = '\x1f' || c = '\x85' || c = '\xa0' ||
  c = ' ' || (' ' ≤ c && c ≤ ' ') || c = ' ' || c = ' ' ||
  c = ' ' || c = ' ' || c = '　'

/-- The line-break characters recognised by Python `str.splitlines`. -/
def pyLineBreak (c : Char) : Bool :=
  c = '\n' || c = '\r' || c = '\x0b' || c = '\x0c' || c = '\x1c' || c = '\x1d' ||
  c = '\x1e' || c = '\x85' || c = ' ' || c = ' '

/-- Worker for `pySplitlines`; `acc` holds the current line reversed. -/
def pySplitlinesAux : List Char → List Char → List (List Char)
  | [], acc => if acc.isEmpty then [] else [acc.reverse]
  | '\r' :: '\n' :: rest, acc => acc.reverse :: pySplitlinesAux rest []
  | c :: rest, acc =>
      if pyLineBreak c then acc.reverse :: pySplitlinesAux rest []
      else pySplitlinesAux rest (c :: acc)

/-- Python `str.splitlines()` (no keepends): `\r\n` is one break, a trailing
break produces no extra empty line, and the empty string has no lines. -/
def pySplitlines (s : List Char) : List (List Char) :=
  pySplitlinesAux s []

/-- Python `str.strip()`: drop leading and trailing whitespace. -/
def pyStrip (s : List Char) : List Char :=
  ((s.dropWhile pyIsSpace).reverse.dropWhile pyIsSpace).reverse

/-- Python `str.lower()` (ASCII case folding; the noise phrases compared
against are all ASCII). -/
def lowerList (s : List Char) : List Char :=
  s.map Char.toLower

/-- Worker for the Python substring test `needle in hay`. -/
def listStartsWith : List Char → List Char → Bool
  | [], _ => true
  | _ :: _, [] => false
  | p :: ps, c :: cs => p == c && listStartsWith ps cs

/-- Python substring containment `needle in hay`. -/
def listContains (needle : List Char) : List Char → Bool
  | [] => needle.isEmpty
  | c :: rest => listStartsWith needle (c :: rest) || listContains needle rest

/-! ### A tiny backtracking regex engine

Both patterns of `mask_pii` are plain sequences of character-class
quantifiers (`X?`, `X`, `X+`, `X{7,}`), so a match is a sequence of
repetition counts tried greedily with backtracking, exactly as
Python's `re` does for these patterns. -/

/-- One quantified character class of a pattern: `cls{minRep,}` when
`maxOne = false`, and `cls{minRep,1}` when `maxOne = true`. -/
structure RItem where
  cls : Char → Bool
  minRep : Nat
  maxOne : Bool

/-- Length of the maximal leading run of characters satisfying `p`. -/
def runLen (p : Char → Bool) : List Char → Nat
  | [] => 0
  | c :: cs => if p c then runLen p cs + 1 else 0

/-- Try `f` at `lo + slack`, `lo + slack - 1`, ..., `lo` and return the
first success: greedy repetition with backtracking. -/
def searchK (f : Nat → Option Nat) (lo : Nat) : Nat → Option Nat
  | 0 => f lo
  | slack + 1 =>
      match f (lo + slack + 1) with
      | some r => some r
      | none => searchK f lo slack

/-- Match the item sequence at the head of `s`, returning the number of
characters consumed by the leftmost-greedy match, as Python `re` would. -/
def matchItems : List RItem → List Char → Option Nat
  | [], _ => some 0
  | it :: rest, s =>
      let hi := if it.maxOne then min 1 (runLen it.cls s) else runLen it.cls s
      if hi < it.minRep then none
      else
        searchK
          (fun k =>
            match matchItems rest (s.drop k) with
            | some n => some (k + n)
            | none => none)
          it.minRep (hi - it.minRep)

/-- Worker for `reSub` with explicit fuel (the patterns of `mask_pii`
can never match the empty string, so fuel `length + 1` is ample). -/
def reSubAux (items : List RItem) (repl : List Char) : Nat → List Char → List Char
  | 0, s => s
  | _ + 1, [] => []
  | fuel + 1, c :: rest =>
      match matchItems items (c :: rest) with
      | some (n + 1) => repl ++ reSubAux items repl fuel ((c :: rest).drop (n + 1))
      | some 0 => c :: reSubAux items repl fuel rest
      | none => c :: reSubAux items repl fuel rest

/-- Python `re.sub(pattern, repl, s)`: replace every non-overlapping
leftmost match, scanning left to right. -/
def reSub (items : List RItem) (repl : List Char) (s : List Char) : List Char :=
  reSubAux items repl (s.length + 1) s

/-- The regex class `\w` (ASCII model: letters, digits, underscore). -/
def isWordChar (c : Char) : Bool := c.isAlphanum || c = '_'

/-- The regex class `[\w\.-]` of the email pattern. -/
def isEmailChar (c : Char) : Bool := isWordChar c || c = '.' || c = '-'

/-- The regex class `[\d\s\-\(\)]` of the phone pattern: digits, all
whitespace (newlines included), dashes and parentheses. -/
def phoneInner (c : Char) : Bool :=
  c.isDigit || pyIsSpace c || c = '-' || c = '(' || c = ')'

/-- The pattern `[\w\.-]+@[\w\.-]+\.\w+` as quantifier items. -/
def emailItems : List RItem :=
  [⟨isEmailChar, 1, false⟩, ⟨fun c => c = '@', 1, true⟩, ⟨isEmailChar, 1, false⟩,
   ⟨fun c => c = '.', 1, true⟩, ⟨isWordChar, 1, false⟩]

/-- The pattern `\+?\d[\d\s\-\(\)]{7,}\d` as quantifier items. -/
def phoneItems : List RItem :=
  [⟨fun c => c = '+', 0, true⟩, ⟨Char.isDigit, 1, true⟩, ⟨phoneInner, 7, false⟩,
   ⟨Char.isDigit, 1, true⟩]

/-- src/core/preprocess.py `mask_pii`: substitute the email pattern with
the literal `[EMAIL]`, then the phone pattern with `[PHONE]`. -/
def mask_pii (s : List Char) : List Char :=
  reSub phoneItems "[PHONE]".data (reSub emailItems "[EMAIL]".data s)

/-- src/core/preprocess.py `SYSTEM_NOISE_PHRASES` (verbatim). -/
def SYSTEM_NOISE_PHRASES : List String :=
  ["Messages and calls are end-to-end encrypted",
   "You changed your phone number",
   "joined using this group\x27s invite link",
   "created group",
   "added",
   "left",
   "changed the subject",
   "changed this group\x27s icon",
   "This message was deleted",
   "Missed voice call",
   "Missed video call"]

/-- src/core/preprocess.py `ATTACHMENT_MARKERS` (verbatim). -/
def ATTACHMENT_MARKERS : List String :=
  ["<Media omitted>",
   "image omitted",
   "video omitted",
   "GIF omitted",
   "audio omitted",
   "document omitted",
   "sticker omitted",
   "attached"]

/-- Fate of one line in the `clean_whatsapp_text` loop. -/
inductive LineFate
  | blank
  | noise
  | kept (s : List Char)

/-- The check `any(p.lower() in s.lower() for p in phrases)`. -/
def phraseHit (phrases : List String) (s : List Char) : Bool :=
  phrases.any fun p => listContains (lowerList p.data) (lowerList s)

/-- One iteration of the line loop of `clean_whatsapp_text`: strip, skip
empty, then the system-noise check followed by the attachment check. -/
def classifyLine (remove_system remove_attachments : Bool) (ln : List Char) : LineFate :=
  let s := pyStrip ln
  if s.isEmpty then .blank
  else if remove_system && phraseHit SYSTEM_NOISE_PHRASES s then .noise
  else if remove_attachments && phraseHit ATTACHMENT_MARKERS s then .noise
  else .kept s

/-- The accumulation loop of `clean_whatsapp_text`: kept (stripped) lines
in order, and the count of removed noise/attachment lines. -/
def cleanLoop (rs ra : Bool) : List (List Char) → List (List Char) × Nat
  | [] => ([], 0)
  | ln :: rest =>
      let r := cleanLoop rs ra rest
      match classifyLine rs ra ln with
      | .blank => r
      | .noise => (r.1, r.2 + 1)
      | .kept s => (s :: r.1, r.2)

/-- The window step `lines[-keep_last_lines:]`, applied only when the
configured value is truthy and positive, as in the source. -/
def windowLines (keep : Int) (lines : List (List Char)) : List (List Char) :=
  if 0 < keep then lines.drop (lines.length - keep.toNat) else lines

/-- Python `"\n".flatten(lines)`. -/
def joinNl : List (List Char) → List Char
  | [] => []
  | [l] => l
  | l :: ls => l ++ '\n' :: joinNl ls

/-- The stats dict returned by `clean_whatsapp_text`. -/
structure PreStats where
  original_lines : Nat
  kept_lines_window : Nat
  removed_noise_lines : Nat
  final_chars : Nat

/-- src/core/preprocess.py `clean_whatsapp_text`: split into lines, keep
the trailing window, filter blank and noise lines, join with newlines,
optionally mask PII, and report stats.  The function is total by
construction, mirroring that the source has no failure path. -/
def clean_whatsapp_text (raw : List Char) (keep_last_lines : Int)
    (remove_system remove_attachments pii_mask : Bool) : List Char × PreStats :=
  let lines := pySplitlines raw
  let window := windowLines keep_last_lines lines
  let r := cleanLoop remove_system remove_attachments window
  let text0 := joinNl r.1
  let text := if pii_mask then mask_pii text0 else text0
  (text, ⟨lines.length, window.length, r.2, text.length⟩)

/-! ### Chunker (src/core/summarizer.py `_chunk_text`) -/

/-- Python `text.rfind("\n", start, stop)`: the highest index `i` with
`start ≤ i < stop` holding a newline, if any. -/
def rfindNl (cs : List Char) (start : Nat) : Nat → Option Nat
  | 0 => none
  | s + 1 =>
      if start ≤ s ∧ cs.getD s ' ' = '\n' then some s
      else rfindNl cs start s

/-- The cut position chosen by one iteration of the `_chunk_text` loop:
`end = min(start + max_chars, len)`; prefer the last newline in
`[start, end)` unless it is absent or at most `start + 1000`. -/
def chunkCut (cs : List Char) (maxc start : Nat) : Nat :=
  match rfindNl cs start (min (start + maxc) cs.length) with
  | none => min (start + maxc) cs.length
  | some i => if i ≤ start + 1000 then min (start + maxc) cs.length else i

/-- The `while start < len(text)` loop of `_chunk_text`, with fuel; fuel
`cs.length` is enough since every iteration advances `start`. -/
def chunkLoop (cs : List Char) (maxc : Nat) : Nat → Nat → List (List Char)
  | 0, _ => []
  | fuel + 1, start =>
      if start < cs.length then
        ((cs.drop start).take (chunkCut cs maxc start - start)) ::
          chunkLoop cs maxc fuel (chunkCut cs maxc start)
      else []

/-- src/core/summarizer.py `_chunk_text`. -/
def _chunk_text (cs : List Char) (maxc : Nat) : List (List Char) :=
  if cs.length ≤ maxc then [cs] else chunkLoop cs maxc cs.length 0

/-! ### Strict JSON (Python `json.loads` / `json.dumps`) -/

/-- A parsed JSON value.  Numeric literals keep their lexeme (the claims
never depend on float re-formatting). -/
inductive PyJson
  | null
  | bool (b : Bool)
  | num (lit : String)
  | str (s : String)
  | arr (items : List PyJson)
  | obj (fields : List (String × PyJson))

/-- JSON inter-token whitespace accepted by `json.loads`. -/
def jsonWs (c : Char) : Bool :=
  c = ' ' || c = '\t' || c = '\n' || c = '\r'

/-- Skip JSON whitespace. -/
def skipWs (s : List Char) : List Char :=
  s.dropWhile jsonWs

/-- Hex digit test for `\uXXXX` escapes. -/
def isHexDig (c : Char) : Bool :=
  c.isDigit || ('a' ≤ c && c ≤ 'f') || ('A' ≤ c && c ≤ 'F')

/-- Value of a hex digit. -/
def hexVal (c : Char) : Nat :=
  if c.isDigit then c.toNat - 48
  else if 'a' ≤ c then c.toNat - 87
  else c.toNat - 55

/-- Parse the body of a JSON string after the opening quote; `acc` holds
the decoded characters reversed, and the fuel dominates the input length.
Control characters must be escaped (strict mode); surrogate pairs are
combined (a lone surrogate is not representable as a `Char` and decodes
to the default character). -/
def parseStrCore : Nat → List Char → List Char → Option (List Char × List Char)
  | 0, _, _ => none
  | _ + 1, [], _ => none
  | _ + 1, '"' :: rest, acc => some (acc.reverse, rest)
  | fuel + 1, '\\' :: r, acc =>
      match r with
      | '"' :: rest => parseStrCore fuel rest ('"' :: acc)
      | '\\' :: rest => parseStrCore fuel rest ('\\' :: acc)
      | '/' :: rest => parseStrCore fuel rest ('/' :: acc)
      | 'b' :: rest => parseStrCore fuel rest ('\x08' :: acc)
      | 'f' :: rest => parseStrCore fuel rest ('\x0c' :: acc)
      | 'n' :: rest => parseStrCore fuel rest ('\n' :: acc)
      | 'r' :: rest => parseStrCore fuel rest ('\r' :: acc)
      | 't' :: rest => parseStrCore fuel rest ('\t' :: acc)
      | 'u' :: h1 :: h2 :: h3 :: h4 :: rest =>
          if isHexDig h1 && isHexDig h2 && isHexDig h3 && isHexDig h4 then
            let n := ((hexVal h1 * 16 + hexVal h2) * 16 + hexVal h3) * 16 + hexVal h4
            if 55296 ≤ n && n ≤ 56319 then
              match rest with
              | '\\' :: 'u' :: g1 :: g2 :: g3 :: g4 :: rest2 =>
                  if isHexDig g1 && isHexDig g2 && isHexDig g3 && isHexDig g4 then
                    let m := ((hexVal g1 * 16 + hexVal g2) * 16 + hexVal g3) * 16 + hexVal g4
                    if 56320 ≤ m && m ≤ 57343 then
                      parseStrCore fuel rest2
                        (Char.ofNat (65536 + (n - 55296) * 1024 + (m - 56320)) :: acc)
                    else
                      parseStrCore fuel ('\\' :: 'u' :: g1 :: g2 :: g3 :: g4 :: rest2)
                        (Char.ofNat n :: acc)
                  else
                    parseStrCore fuel ('\\' :: 'u' :: g1 :: g2 :: g3 :: g4 :: rest2)
                      (Char.ofNat n :: acc)
              | _ => parseStrCore fuel rest (Char.ofNat n :: acc)
            else parseStrCore fuel rest (Char.ofNat n :: acc)
          else none
      | _ => none
  | fuel + 1, c :: rest, acc =>
      if c.toNat < 32 then none else parseStrCore fuel rest (c :: acc)

/-- Parse a JSON string body (fuel instantiated to the input length). -/
def parseStrAux (s : List Char) (acc : List Char) : Option (List Char × List Char) :=
  parseStrCore (s.length + 1) s acc

/-- Maximal leading digit run and the remainder. -/
def digitSpan (s : List Char) : List Char × List Char :=
  (s.takeWhile Char.isDigit, s.dropWhile Char.isDigit)

/-- The integer part of the JSON number grammar: `0` or `[1-9][0-9]*`. -/
def parseIntPart : List Char → Option (List Char × List Char)
  | '0' :: rest => some (['0'], rest)
  | c :: rest =>
      if c.isDigit then
        let d := digitSpan rest
        some (c :: d.1, d.2)
      else none
  | [] => none

/-- The optional fraction part `.[0-9]+`. -/
def parseFrac : List Char → List Char × List Char
  | '.' :: rest =>
      let d := digitSpan rest
      if d.1.isEmpty then ([], '.' :: rest) else ('.' :: d.1, d.2)
  | s => ([], s)

/-- The optional exponent part `[eE][+-]?[0-9]+`. -/
def parseExp : List Char → List Char × List Char
  | c :: rest =>
      if c = 'e' || c = 'E' then
        match rest with
        | s :: rest2 =>
            if s = '+' || s = '-' then
              let d := digitSpan rest2
              if d.1.isEmpty then ([], c :: rest) else (c :: s :: d.1, d.2)
            else
              let d := digitSpan rest
              if d.1.isEmpty then ([], c :: rest) else (c :: d.1, d.2)
        | [] => ([], [c])
      else ([], c :: rest)
  | [] => ([], [])

/-- A JSON number lexeme per Python's `NUMBER_RE`, returned verbatim. -/
def parseNum : List Char → Option (List Char × List Char)
  | '-' :: rest =>
      match parseIntPart rest with
      | none => none
      | some (ip, r1) =>
          let f := parseFrac r1
          let e := parseExp f.2
          some ('-' :: (ip ++ f.1 ++ e.1), e.2)
  | s =>
      match parseIntPart s with
      | none => none
      | some (ip, r1) =>
          let f := parseFrac r1
          let e := parseExp f.2
          some (ip ++ f.1 ++ e.1, e.2)

/-- Strip a literal keyword from the head of the input. -/
def stripKeyword : List Char → List Char → Option (List Char)
  | [], s => some s
  | p :: ps, c :: cs => if p = c then stripKeyword ps cs else none
  | _ :: _, [] => none

/-- Python dict insertion order for a key parsed before the fields `fs`:
a duplicate keeps the first position but takes the later value. -/
def dictCons (k : String) (v : PyJson) (fs : List (String × PyJson)) :
    List (String × PyJson) :=
  match List.lookup k fs with
  | some v2 => (k, v2) :: fs.filter (fun f => !(f.1 == k))
  | none => (k, v) :: fs

/-- Parser modes: a single value, an array body after `[` (possibly
empty), a non-empty array tail, an object body after the opening brace
(possibly empty), a non-empty object tail. -/
inductive PMode
  | val
  | arrFirst
  | arrMore
  | objFirst
  | objMore

/-- The recursive-descent scanner of Python `json.loads` (strict mode,
with the default acceptance of `NaN`, `Infinity` and `-Infinity`),
with fuel for termination. -/
def parseF : Nat → PMode → List Char → Option (PyJson × List Char)
  | 0, _, _ => none
  | fuel + 1, PMode.val, s0 =>
      let s := skipWs s0
      match s with
      | '{' :: rest => parseF fuel PMode.objFirst rest
      | '[' :: rest => parseF fuel PMode.arrFirst rest
      | '"' :: rest =>
          match parseStrAux rest [] with
          | some (cs, r) => some (.str (String.mk cs), r)
          | none => none
      | _ =>
          match stripKeyword "true".data s with
          | some r => some (.bool true, r)
          | none =>
          match stripKeyword "false".data s with
          | some r => some (.bool false, r)
          | none =>
          match stripKeyword "null".data s with
          | some r => some (.null, r)
          | none =>
          match parseNum s with
          | some (lex, r) => some (.num (String.mk lex), r)
          | none =>
          match stripKeyword "NaN".data s with
          | some r => some (.num "NaN", r)
          | none =>
          match stripKeyword "Infinity".data s with
          | some r => some (.num "Infinity", r)
          | none =>
          match stripKeyword "-Infinity".data s with
          | some r => some (.num "-Infinity", r)
          | none => none
  | fuel + 1, PMode.arrFirst, s0 =>
      match skipWs s0 with
      | ']' :: rest => some (.arr [], rest)
      | _ => parseF fuel PMode.arrMore s0
  | fuel + 1, PMode.arrMore, s0 =>
      match parseF fuel PMode.val s0 with
      | none => none
      | some (v, r1) =>
          match skipWs r1 with
          | ',' :: r2 =>
              match parseF fuel PMode.arrMore r2 with
              | some (PyJson.arr items, r3) => some (.arr (v :: items), r3)
              | _ => none
          | ']' :: r2 => some (.arr [v], r2)
          | _ => none
  | fuel + 1, PMode.objFirst, s0 =>
      match skipWs s0 with
      | '}' :: rest => some (.obj [], rest)
      | _ => parseF fuel PMode.objMore s0
  | fuel + 1, PMode.objMore, s0 =>
      match skipWs s0 with
      | '"' :: rest =>
          match parseStrAux rest [] with
          | none => none
          | some (kcs, r1) =>
              match skipWs r1 with
              | ':' :: r2 =>
                  match parseF fuel PMode.val r2 with
                  | none => none
                  | some (v, r3) =>
                      match skipWs r3 with
                      | ',' :: r4 =>
                          match parseF fuel PMode.objMore r4 with
                          | some (PyJson.obj fs, r5) =>
                              some (.obj (dictCons (String.mk kcs) v fs), r5)
                          | _ => none
                      | '}' :: r4 => some (.obj [(String.mk kcs, v)], r4)
                      | _ => none
              | _ => none
      | _ => none

/-- Python `json.loads`: parse one value and require only whitespace
after it ("Extra data" otherwise). -/
def jsonLoads (s : List Char) : Option PyJson :=
  match parseF (4 * s.length + 8) PMode.val s with
  | some (v, rest) => if (skipWs rest).isEmpty then some v else none
  | none => none

/-- Lowercase hex digit, as used by `json.dumps` control escapes. -/
def hexDigitLower (n : Nat) : Char :=
  if n < 10 then Char.ofNat (48 + n) else Char.ofNat (87 + n)

/-- Escape one character as `json.dumps(..., ensure_ascii=False)` does. -/
def escJsonChar (c : Char) : List Char :=
  if c = '"' then ['\\', '"']
  else if c = '\\' then ['\\', '\\']
  else if c = '\n' then ['\\', 'n']
  else if c = '\r' then ['\\', 'r']
  else if c = '\t' then ['\\', 't']
  else if c = '\x08' then ['\\', 'b']
  else if c = '\x0c' then ['\\', 'f']
  else if c.toNat < 32 then
    ['\\', 'u', '0', '0', hexDigitLower (c.toNat / 16), hexDigitLower (c.toNat % 16)]
  else [c]

/-- Serialize a string literal as `json.dumps(..., ensure_ascii=False)`. -/
def dumpStr (s : String) : String :=
  String.mk ('"' :: s.data.foldr (fun c acc => escJsonChar c ++ acc) ['"'])

mutual

/-- Python `json.dumps(..., ensure_ascii=False)` with the default
separators `", "` and `": "`. -/
def dumpJson : PyJson → String
  | .null => "null"
  | .bool b => if b then "true" else "false"
  | .num l => l
  | .str s => dumpStr s
  | .arr items => "[" ++ dumpArr items ++ "]"
  | .obj fields => "\x7b" ++ dumpObj fields ++ "\x7d"

/-- Array items joined by `", "`. -/
def dumpArr : List PyJson → String
  | [] => ""
  | [v] => dumpJson v
  | v :: vs => dumpJson v ++ ", " ++ dumpArr vs

/-- Object fields `key: value` joined by `", "`. -/
def dumpObj : List (String × PyJson) → String
  | [] => ""
  | [(k, v)] => dumpStr k ++ ": " ++ dumpJson v
  | (k, v) :: fs => dumpStr k ++ ": " ++ dumpJson v ++ ", " ++ dumpObj fs

end

/-! ### JSON recovery (src/core/summarizer.py `_call_openai_json`) -/

/-- Index of the first character satisfying `p`. -/
def firstIdx (p : Char → Bool) : List Char → Option Nat
  | [] => none
  | c :: rest => if p c then some 0 else (firstIdx p rest).map (· + 1)

/-- Index of the last character satisfying `p`. -/
def lastIdx (p : Char → Bool) (s : List Char) : Option Nat :=
  match firstIdx p s.reverse with
  | none => none
  | some k => some (s.length - 1 - k)

/-- The span matched by `re.search(r"\{.*\}", txt, flags=re.S)`: from the
first `\x7b` through the last `\x7d`, when the first `\x7b` precedes it. -/
def greedySpan (s : List Char) : Option (List Char) :=
  match firstIdx (fun c => c = '{') s, lastIdx (fun c => c = '}') s with
  | some i, some j => if i < j then some ((s.drop i).take (j + 1 - i)) else none
  | _, _ => none

/-- The Python exceptions that can escape the embedded summarizer code:
`RuntimeError` (missing credential), the explicitly raised `ValueError`
(whose message embeds the stripped model text), and a
`json.JSONDecodeError` escaping from the span re-parse, which carries the
document it was parsing (the span), not the full model text. -/
inductive PyErr
  | runtime (msg : String)
  | valueError (msg : String)
  | jsonDecode (doc : String)

/-- The best-effort strict JSON parsing of `_call_openai_json`: strip the
model text, try `json.loads` on the whole text, else on the greedy brace
span; if the span exists but fails to parse, the decoder's error
propagates (carrying the span); if no span exists, raise
`ValueError("Model did not return valid JSON:\n" + txt)`. -/
def parse_model_output (raw : String) : Except PyErr PyJson :=
  let txt := pyStrip raw.data
  match jsonLoads txt with
  | some v => .ok v
  | none =>
      match greedySpan txt with
      | some sub =>
          match jsonLoads sub with
          | some v => .ok v
          | none => .error (.jsonDecode (String.mk sub))
      | none => .error (.valueError ("Model did not return valid JSON:\n" ++ String.mk txt))

/-! ### Map/Reduce summarizer (src/core/summarizer.py) -/

/-- src/core/summarizer.py `CHUNK_PROMPT` (verbatim). -/
def CHUNK_PROMPT : String :=
  "You are a privacy-conscious relationship assistant.\nSummarize the following WhatsApp chat chunk for the USER (not for the other person).\nFocus only on relationship-relevant memory.\n\nReturn STRICT JSON with keys:\n- \"key_topics\": array of short strings\n- \"notable_facts\": array of short strings (only if clearly in text; no guessing)\n- \"open_loops\": array of short strings (promises, follow-ups, unanswered questions)\n- \"tone\": one of [\"warm\",\"neutral\",\"tense\",\"mixed\",\"unknown\"]\n- \"time_signals\": array of short strings\n\nRules:\n- Do NOT include sensitive content unless necessary for follow-up.\n- If the chunk is mostly noise, return empty arrays and tone=\"unknown\".\n- No extra keys. No markdown. JSON only.\n"

/-- src/core/summarizer.py `REDUCE_PROMPT` (verbatim). -/
def REDUCE_PROMPT : String :=
  "You are a privacy-conscious relationship assistant.\nYou will receive multiple JSON chunk summaries of a WhatsApp chat.\nMerge them into a final, actionable relationship summary.\n\nReturn STRICT JSON with keys:\n- \"relationship_summary\": array of 2-4 bullet strings (facts only, no guessing)\n- \"key_topics\": array of up to 8 short strings\n- \"open_loops\": array of up to 6 short strings\n- \"suggested_next_action\": array of 1-3 bullet strings (timing + what to do)\n- \"message_drafts\": object with keys \"whatsapp\", \"linkedin\", \"email\" (each max 70 words)\n- \"confidence_note\": one short string explaining any missing context\n\nRules:\n- Be warm, human, not salesy.\n- If information is insufficient, ask 1 clarifying question inside \"confidence_note\".\n- No extra keys. No markdown. JSON only.\n"

/-- One provider invocation as observed at the outbound interface: the
system instruction and the user content (model id and temperature are
fixed per request and carry no claim content). -/
structure CallRec where
  system : String
  user : String

/-- src/core/summarizer.py `_get_client`: `os.getenv("OPENAI_API_KEY")`
is modelled as an `Option String` parameter; an unset or empty value
raises `RuntimeError("OPENAI_API_KEY is not set.")`. -/
def _get_client (apiKey : Option String) : Except PyErr Unit :=
  match apiKey with
  | none => .error (.runtime "OPENAI_API_KEY is not set.")
  | some k => if k = "" then .error (.runtime "OPENAI_API_KEY is not set.") else .ok ()

/-- src/core/summarizer.py `_call_openai_json`, with the LLM modelled as
an oracle from (system prompt, user content) to response text: create
the client (credential check) before the provider call, then
best-effort-parse the stripped response.  On success the performed call
is reported alongside the parsed value. -/
def _call_openai_json (apiKey : Option String) (oracle : String → String → String)
    (system_prompt user_content : String) : Except PyErr (PyJson × CallRec) :=
  match _get_client apiKey with
  | .error e => .error e
  | .ok _ =>
      match parse_model_output (oracle system_prompt user_content) with
      | .error e => .error e
      | .ok v => .ok (v, ⟨system_prompt, user_content⟩)

/-- The user-content f-string built for chunk `i` of `n`. -/
def buildChunkPayload (person_name purpose tone channel : String) (i n : Nat)
    (ch : List Char) : String :=
  "Context:\n- Person name: " ++ person_name ++
  "\n- Purpose: " ++ purpose ++
  "\n- Desired tone for drafts: " ++ tone ++
  "\n- Primary channel: " ++ channel ++
  "\n\nChat chunk " ++ toString i ++ "/" ++ toString n ++ ":\n" ++
  String.mk ch ++ "\n"

/-- The Map loop of `summarize_whatsapp_hybrid`: one LLM call per chunk,
`i` enumerating from 1, accumulating parsed chunk summaries and the
performed calls in chunk order; the first failure aborts the request. -/
def mapLoop (apiKey : Option String) (oracle : String → String → String)
    (person_name purpose tone channel : String) (n : Nat) :
    Nat → List (List Char) → Except PyErr (List PyJson × List CallRec)
  | _, [] => .ok ([], [])
  | i, ch :: rest =>
      match _call_openai_json apiKey oracle CHUNK_PROMPT
          (buildChunkPayload person_name purpose tone channel i n ch) with
      | .error e => .error e
      | .ok (v, c) =>
          match mapLoop apiKey oracle person_name purpose tone channel n (i + 1) rest with
          | .error e => .error e
          | .ok (vs, cs) => .ok (v :: vs, c :: cs)

/-- src/core/summarizer.py `summarize_whatsapp_hybrid`: chunk the cleaned
text with `max_chars=9000`, run the Map loop, serialize all chunk
summaries into one JSON payload `{"chunk_summaries": [...]}` and make a
single Reduce call.  The result is paired with the ordered list of
provider calls performed. -/
def summarize_whatsapp_hybrid (apiKey : Option String)
    (oracle : String → String → String) (clean_text : List Char)
    (person_name purpose tone channel : String) :
    Except PyErr (PyJson × List CallRec) :=
  let chunks := _chunk_text clean_text 9000
  match mapLoop apiKey oracle person_name purpose tone channel chunks.length 1 chunks with
  | .error e => .error e
  | .ok (summaries, calls) =>
      let reduce_payload := dumpJson (PyJson.obj [("chunk_summaries", PyJson.arr summaries)])
      match _call_openai_json apiKey oracle REDUCE_PROMPT reduce_payload with
      | .error e => .error e
      | .ok (final, c) => .ok (final, calls ++ [c])

/-- The expected Map-stage call records for chunks numbered from `i`. -/
def chunkCallsFrom (person_name purpose tone channel : String) (n : Nat) :
    Nat → List (List Char) → List CallRec
  | _, [] => []
  | i, ch :: rest =>
      ⟨CHUNK_PROMPT, buildChunkPayload person_name purpose tone channel i n ch⟩ ::
        chunkCallsFrom person_name purpose tone channel n (i + 1) rest

/-- The expected Map-stage summaries for chunks numbered from `i`, when
the oracle's responses parse to `f sys user`. -/
def chunkValuesFrom (f : String → String → PyJson)
    (person_name purpose tone channel : String) (n : Nat) :
    Nat → List (List Char) → List PyJson
  | _, [] => []
  | i, ch :: rest =>
      f CHUNK_PROMPT (buildChunkPayload person_name purpose tone channel i n ch) ::
        chunkValuesFrom f person_name purpose tone channel n (i + 1) rest

/-- Sum of the lengths of the first `i` chunks: the start offset of chunk
`i` inside the original text. -/
def prefixLenSum (xs : List (List Char)) (i : Nat) : Nat :=
  ((xs.take i).map List.length).sum

/-- The Reduce payload expected on the success path: the chunk
summaries, in chunk order, serialized as `{"chunk_summaries": [...]}`. -/
def expectedReducePayload (f : String → String → PyJson)
    (person_name purpose tone channel : String) (text : List Char) : String :=
  dumpJson (PyJson.obj [("chunk_summaries", PyJson.arr
    (chunkValuesFrom f person_name purpose tone channel
      (_chunk_text text 9000).length 1 (_chunk_text text 9000)))])

/-- The full call sequence expected on the success path: one Map call
per chunk in chunk order, then the single Reduce call. -/
def expectedCalls (f : String → String → PyJson)
    (person_name purpose tone channel : String) (text : List Char) : List CallRec :=
  chunkCallsFrom person_name purpose tone channel
      (_chunk_text text 9000).length 1 (_chunk_text text 9000)
    ++ [⟨REDUCE_PROMPT, expectedReducePayload f person_name purpose tone channel text⟩]

/-! ### Lemmas about the chunker -/

theorem rfindNl_bounds (cs : List Char) (start : Nat) :
    ∀ stop i, rfindNl cs start stop = some i → start ≤ i ∧ i < stop := by
  intro stop
  induction stop with
  | zero => intro i h; simp [rfindNl] at h
  | succ s ih =>
      intro i h
      rw [rfindNl] at h
      split at h
      · rename_i hcond
        cases h
        exact ⟨hcond.1, Nat.lt_succ_self s⟩
      · have := ih i h
        exact ⟨this.1, Nat.lt_succ_of_lt this.2⟩

theorem chunkCut_bounds (cs : List Char) (maxc start : Nat) (hm : 1 ≤ maxc)
    (hs : start < cs.length) :
    start < chunkCut cs maxc start ∧ chunkCut cs maxc start ≤ cs.length ∧
      chunkCut cs maxc start ≤ start + maxc := by
  unfold chunkCut
  split
  · refine ⟨?_, ?_, ?_⟩
    · exact lt_min (by omega) hs
    · exact min_le_right _ _
    · exact min_le_left _ _
  · rename_i i hfind
    have hb := rfindNl_bounds cs start _ i hfind
    split
    · refine ⟨lt_min (by omega) hs, min_le_right _ _, min_le_left _ _⟩
    · rename_i hfar
      have h1 : i < min (start + maxc) cs.length := hb.2
      exact ⟨by omega, le_of_lt (lt_of_lt_of_le h1 (min_le_right _ _)),
        le_of_lt (lt_of_lt_of_le h1 (min_le_left _ _))⟩

theorem dropLenAppend (a : List Char) : ∀ (b : List Char) (n : Nat),
    (a ++ b).drop (a.length + n) = b.drop n := by
  induction a with
  | nil => intro b n; simp
  | cons c t ih =>
      intro b n
      simp only [List.cons_append, List.length_cons]
      have : t.length + 1 + n = (t.length + n) + 1 := by omega
      rw [this, List.drop_succ_cons, ih]

theorem chunkLoop_join (cs : List Char) (maxc : Nat) (hm : 1 ≤ maxc) :
    ∀ fuel start, cs.length - start ≤ fuel →
      (chunkLoop cs maxc fuel start).flatten = cs.drop start := by
  intro fuel
  induction fuel with
  | zero =>
      intro start h
      have : cs.length ≤ start := by omega
      simp [chunkLoop, List.drop_eq_nil_of_le this]
  | succ f ih =>
      intro start h
      rw [chunkLoop]
      split
      · rename_i hlt
        have hb := chunkCut_bounds cs maxc start hm hlt
        have hrest : (chunkLoop cs maxc f (chunkCut cs maxc start)).flatten
            = cs.drop (chunkCut cs maxc start) := ih _ (by omega)
        simp only [List.flatten_cons, hrest]
        have hdd : (cs.drop start).drop (chunkCut cs maxc start - start)
            = cs.drop (chunkCut cs maxc start) := by
          rw [List.drop_drop]
          congr 1
          omega
        rw [← hdd, List.take_append_drop]
      · rename_i hge
        have : cs.length ≤ start := by omega
        simp [List.drop_eq_nil_of_le this]

theorem chunkLoop_mem (cs : List Char) (maxc : Nat) (hm : 1 ≤ maxc) :
    ∀ fuel start c, c ∈ chunkLoop cs maxc fuel start → c.length ≤ maxc ∧ c ≠ [] := by
  intro fuel
  induction fuel with
  | zero => intro start c h; simp [chunkLoop] at h
  | succ f ih =>
      intro start c h
      rw [chunkLoop] at h
      split at h
      · rename_i hlt
        have hb := chunkCut_bounds cs maxc start hm hlt
        rcases List.mem_cons.mp h with hc | hc
        · subst hc
          have hlen : ((cs.drop start).take (chunkCut cs maxc start - start)).length
              = chunkCut cs maxc start - start := by
            rw [List.length_take, List.length_drop]
            omega
          constructor
          · rw [hlen]; omega
          · intro hnil
            rw [hnil] at hlen
            simp at hlen
            omega
        · exact ih _ c hc
      · simp at h

theorem chunkLoop_fuel (cs : List Char) (maxc : Nat) (hm : 1 ≤ maxc) :
    ∀ f1 f2 start, cs.length - start ≤ f1 → cs.length - start ≤ f2 →
      chunkLoop cs maxc f1 start = chunkLoop cs maxc f2 start := by
  intro f1
  induction f1 with
  | zero =>
      intro f2 start h1 h2
      have hle : cs.length ≤ start := by omega
      cases f2 with
      | zero => rfl
      | succ g =>
          rw [chunkLoop, chunkLoop, if_neg (by omega)]
  | succ f ih =>
      intro f2 start h1 h2
      cases f2 with
      | zero =>
          have hle : cs.length ≤ start := by omega
          rw [chunkLoop, chunkLoop, if_neg (by omega)]
      | succ g =>
          rw [chunkLoop]
          conv_rhs => rw [chunkLoop]
          split
          · rename_i hlt
            have hb := chunkCut_bounds cs maxc start hm hlt
            rw [ih g _ (by omega) (by omega)]
          · rfl

theorem join_get_slice :
    ∀ (xs : List (List Char)) (cs : List Char), xs.flatten = cs →
      ∀ i c, xs.get? i = some c →
        c = (cs.drop (prefixLenSum xs i)).take c.length := by
  intro xs
  induction xs with
  | nil => intro cs _ i c h; simp at h
  | cons x rest ih =>
      intro cs hjoin i c h
      subst hjoin
      cases i with
      | zero =>
          rw [List.get?_cons_zero] at h
          injection h with h
          subst h
          simp only [prefixLenSum, List.take_zero, List.map_nil, List.sum_nil,
            List.drop_zero, List.flatten_cons]
          exact (List.take_left x rest.flatten).symm
      | succ j =>
          rw [List.get?_cons_succ] at h
          have hpre : prefixLenSum (x :: rest) (j + 1)
              = x.length + prefixLenSum rest j := by
            simp [prefixLenSum, List.take_succ_cons]
          rw [hpre, List.flatten_cons, dropLenAppend]
          exact ih rest.flatten rfl j c h

theorem chunk_text_all_le (cs : List Char) (maxc : Nat) (hm : 1 ≤ maxc) :
    ∀ c ∈ _chunk_text cs maxc, c.length ≤ maxc := by
  intro c hc
  unfold _chunk_text at hc
  split at hc
  · rename_i hle
    rcases List.mem_singleton.mp hc with rfl
    exact hle
  · exact (chunkLoop_mem cs maxc hm _ _ c hc).1

theorem chunk_text_ne_nil (cs : List Char) (maxc : Nat) : _chunk_text cs maxc ≠ [] := by
  unfold _chunk_text
  split
  · simp
  · rename_i hgt
    have h0 : 0 < cs.length := by omega
    obtain ⟨m, hmeq⟩ : ∃ m, cs.length = m + 1 := ⟨cs.length - 1, by omega⟩
    rw [hmeq]
    rw [chunkLoop, if_pos (by omega)]
    simp

/-! ### Claim theorems for the chunker -/

/-- C1: for every input and every `max_chars ≥ 1`, concatenating the
chunks of `_chunk_text` in order reproduces the input exactly; every
chunk is non-empty whenever the input is non-empty; and each chunk is
the contiguous slice of the input starting at the sum of the lengths of
the chunks before it, so the chunks are non-overlapping slices in
strictly increasing start order. -/
theorem chunk_round_trip (cs : List Char) (maxc : Nat) (h : 1 ≤ maxc) :
    (_chunk_text cs maxc).flatten = cs
    ∧ (cs ≠ [] → ∀ c ∈ _chunk_text cs maxc, c ≠ [])
    ∧ (∀ i c, (_chunk_text cs maxc).get? i = some c →
        c = (cs.drop (prefixLenSum (_chunk_text cs maxc) i)).take c.length) := by
  have hjoin : (_chunk_text cs maxc).flatten = cs := by
    unfold _chunk_text
    split
    · simp
    · exact chunkLoop_join cs maxc h cs.length 0 (by omega)
  refine ⟨hjoin, ?_, ?_⟩
  · intro hne c hc
    unfold _chunk_text at hc
    split at hc
    · rcases List.mem_singleton.mp hc with rfl
      exact hne
    · exact (chunkLoop_mem cs maxc h _ _ c hc).2
  · exact join_get_slice _ cs hjoin

/-- C1 witness: the round-trip conjunction evaluated at `"ab"` with
`max_chars = 1`. -/
theorem chunk_round_trip_witness :
    (_chunk_text "ab".data 1).flatten = "ab".data
    ∧ ("ab".data ≠ [] → ∀ c ∈ _chunk_text "ab".data 1, c ≠ [])
    ∧ (∀ i c, (_chunk_text "ab".data 1).get? i = some c →
        c = ("ab".data.drop (prefixLenSum (_chunk_text "ab".data 1) i)).take c.length) :=
  chunk_round_trip "ab".data 1 (by decide)

/-- C2: every chunk except possibly the last has length at most
`max_chars` (in fact every chunk does), and an input already within
`max_chars` yields exactly one chunk, the whole input. -/
theorem chunk_bound (cs : List Char) (maxc : Nat) (h : 1 ≤ maxc) :
    (∀ c ∈ (_chunk_text cs maxc).dropLast, c.length ≤ maxc)
    ∧ (cs.length ≤ maxc → _chunk_text cs maxc = [cs]) := by
  constructor
  · intro c hc
    exact chunk_text_all_le cs maxc h c ((_chunk_text cs maxc).dropLast_sublist.mem hc)
  · intro hle
    unfold _chunk_text
    rw [if_pos hle]

/-- C2 witness: the bound conjunction evaluated at `"abc"` with
`max_chars = 2`. -/
theorem chunk_bound_witness :
    (∀ c ∈ (_chunk_text "abc".data 2).dropLast, c.length ≤ 2)
    ∧ ("abc".data.length ≤ 2 → _chunk_text "abc".data 2 = ["abc".data]) :=
  chunk_bound "abc".data 2 (by decide)

/-- C8: for `max_chars ≥ 1` the chunking loop makes strictly positive
progress — from any position inside the text the chosen cut is strictly
beyond it and within the text — and consequently fuel `len(text)`
suffices: the loop's value is the same for every fuel at least
`len(text)`, i.e. the loop terminates after finitely many iterations. -/
theorem chunker_termination (cs : List Char) (maxc : Nat) (h : 1 ≤ maxc) :
    (∀ start, start < cs.length →
        start < chunkCut cs maxc start ∧ chunkCut cs maxc start ≤ cs.length)
    ∧ (∀ fuel, cs.length ≤ fuel →
        chunkLoop cs maxc fuel 0 = chunkLoop cs maxc cs.length 0) := by
  constructor
  · intro start hs
    have hb := chunkCut_bounds cs maxc start h hs
    exact ⟨hb.1, hb.2.1⟩
  · intro fuel hf
    exact chunkLoop_fuel cs maxc h fuel cs.length 0 (by omega) (by omega)

/-- C8 witness: progress and fuel-stability evaluated at `"ab"` with
`max_chars = 1`. -/
theorem chunker_termination_witness :
    (∀ start, start < "ab".data.length →
        start < chunkCut "ab".data 1 start ∧ chunkCut "ab".data 1 start ≤ "ab".data.length)
    ∧ (∀ fuel, "ab".data.length ≤ fuel →
        chunkLoop "ab".data 1 fuel 0 = chunkLoop "ab".data 1 "ab".data.length 0) :=
  chunker_termination "ab".data 1 (by decide)

/-! ### Claim theorems for the preprocessor -/

/-- C4: the preprocessor is total by construction (it is a plain Lean
function into `List Char × PreStats`, mirroring the absence of any
failure path in the source), and for the empty input string it returns
the empty cleaned text with all four stats counters zero, for every
window size and every combination of the boolean flags. -/
theorem clean_total_empty (keep : Int) (rs ra pm : Bool) :
    clean_whatsapp_text [] keep rs ra pm = ([], ⟨0, 0, 0, 0⟩) := by
  have hw : windowLines keep ([] : List (List Char)) = [] := by
    unfold windowLines
    split <;> simp
  simp only [clean_whatsapp_text]
  rw [show pySplitlines ([] : List Char) = [] from rfl, hw]
  cases pm <;> rfl

/-- C5: `mask_pii` substitutes the email pattern with the literal
placeholder `[EMAIL]` and then the phone pattern with `[PHONE]`, in that
order, over the whole text; on the spec's example the digits and the
`@` local-part are gone and both placeholders are present. -/
theorem pii_masking :
    (∀ s : List Char,
        mask_pii s = reSub phoneItems "[PHONE]".data (reSub emailItems "[EMAIL]".data s))
    ∧ mask_pii "Call me at +1 415-555-0100 or a@b.com".data
        = "Call me at [PHONE] or [EMAIL]".data
    ∧ listContains "[PHONE]".data "Call me at [PHONE] or [EMAIL]".data = true
    ∧ listContains "[EMAIL]".data "Call me at [PHONE] or [EMAIL]".data = true
    ∧ listContains "415-555-0100".data "Call me at [PHONE] or [EMAIL]".data = false
    ∧ listContains "a@b".data "Call me at [PHONE] or [EMAIL]".data = false :=
  ⟨fun _ => rfl, rfl, rfl, rfl, rfl, rfl⟩

/-- C9: with `remove_system` enabled, any line whose stripped form is
non-empty and whose lowercase form contains `"added"` or `"left"` as a
substring is classified as noise — the phrase list indeed contains the
bare words `"added"` and `"left"` — so an ordinary message such as
`"Bob added milk to the list"` is removed and counted in
`removed_noise_lines`, not only genuine group-management notices. -/
theorem noise_substring_aggressive (ra : Bool) (ln : List Char)
    (h1 : (pyStrip ln).isEmpty = false)
    (h2 : listContains (lowerList "added".data) (lowerList (pyStrip ln)) = true
        ∨ listContains (lowerList "left".data) (lowerList (pyStrip ln)) = true) :
    classifyLine true ra ln = LineFate.noise
    ∧ "added" ∈ SYSTEM_NOISE_PHRASES ∧ "left" ∈ SYSTEM_NOISE_PHRASES
    ∧ clean_whatsapp_text "Bob added milk to the list".data 800 true true true
        = ([], ⟨1, 1, 1, 0⟩) := by
  have hhit : phraseHit SYSTEM_NOISE_PHRASES (pyStrip ln) = true := by
    rcases h2 with h | h
    · exact List.any_eq_true.mpr ⟨"added", by decide, h⟩
    · exact List.any_eq_true.mpr ⟨"left", by decide, h⟩
  refine ⟨?_, by decide, by decide, by rfl⟩
  unfold classifyLine
  rw [if_neg (by simp [h1]), if_pos (by simp [hhit])]

/-- C9 witness: an ordinary ASCII message containing `LEFT` in upper
case is classified as noise. -/
theorem noise_substring_aggressive_witness :
    classifyLine true false "She LEFT early".data = LineFate.noise
    ∧ "added" ∈ SYSTEM_NOISE_PHRASES ∧ "left" ∈ SYSTEM_NOISE_PHRASES
    ∧ clean_whatsapp_text "Bob added milk to the list".data 800 true true true
        = ([], ⟨1, 1, 1, 0⟩) :=
  noise_substring_aggressive false "She LEFT early".data (by rfl) (Or.inr (by rfl))

/-- C10: the phone pattern's interior class contains the newline
character, and masking runs on the newline-joined text, so two kept
lines whose digits abut across the line break are replaced by one
`[PHONE]` placeholder spanning the newline: the masked output of
`"see 1234\n5678 ok"` is the single line `"see [PHONE] ok"`, strictly
fewer lines than the two lines that survived filtering. -/
theorem phone_mask_merges_lines :
    phoneInner '\n' = true
    ∧ clean_whatsapp_text "see 1234\n5678 ok".data 800 true true true
        = ("see [PHONE] ok".data, ⟨2, 2, 0, 14⟩)
    ∧ (cleanLoop true true
        (windowLines 800 (pySplitlines "see 1234\n5678 ok".data))).1.length = 2
    ∧ (pySplitlines
        (clean_whatsapp_text "see 1234\n5678 ok".data 800 true true true).1).length
      < (cleanLoop true true
          (windowLines 800 (pySplitlines "see 1234\n5678 ok".data))).1.length :=
  ⟨rfl, rfl, rfl, by decide⟩

/-! ### Claim theorems for JSON recovery -/

/-- C3 (amended): `parse_model_output` first tries a strict JSON parse
of the stripped model text and returns its value on success; on failure
it parses the greedy span from the first opening brace through the last
closing brace and returns that value if it parses; when no such span
exists it fails with the `ValueError` whose message embeds the stripped
raw text; but when the span exists and fails to parse, the JSON
decoder's own error propagates, carrying the extracted span rather than
the full raw text.  The spec's examples hold: prose-wrapped JSON is
recovered, and a brace-free input fails with the raw-text error. -/
theorem json_recovery (raw : String) :
    (∀ v, jsonLoads (pyStrip raw.data) = some v → parse_model_output raw = .ok v)
    ∧ (∀ sub v, jsonLoads (pyStrip raw.data) = none →
        greedySpan (pyStrip raw.data) = some sub → jsonLoads sub = some v →
        parse_model_output raw = .ok v)
    ∧ (∀ sub, jsonLoads (pyStrip raw.data) = none →
        greedySpan (pyStrip raw.data) = some sub → jsonLoads sub = none →
        parse_model_output raw = .error (.jsonDecode (String.mk sub)))
    ∧ (jsonLoads (pyStrip raw.data) = none → greedySpan (pyStrip raw.data) = none →
        parse_model_output raw
          = .error (.valueError ("Model did not return valid JSON:\n"
              ++ String.mk (pyStrip raw.data))))
    ∧ parse_model_output "Sure! \x7b\"key_topics\":[\"x\"]\x7d\nThanks"
        = .ok (PyJson.obj [("key_topics", PyJson.arr [PyJson.str "x"])])
    ∧ parse_model_output "no json here"
        = .error (.valueError "Model did not return valid JSON:\nno json here") := by
  refine ⟨?_, ?_, ?_, ?_, by rfl, by rfl⟩
  · intro v h
    simp only [parse_model_output]
    rw [h]
  · intro sub v h1 h2 h3
    simp only [parse_model_output]
    rw [h1, h2]
    dsimp only
    rw [h3]
  · intro sub h1 h2 h3
    simp only [parse_model_output]
    rw [h1, h2]
    dsimp only
    rw [h3]
  · intro h1 h2
    simp only [parse_model_output]
    rw [h1, h2]

/-- C3 witness: a brace-free input takes the raw-text `ValueError`
branch, and a bare JSON number parses directly. -/
theorem json_recovery_witness :
    parse_model_output "xyz" = .error (PyErr.valueError "Model did not return valid JSON:\nxyz")
    ∧ parse_model_output "3" = .ok (PyJson.num "3") :=
  ⟨(json_recovery "xyz").2.2.2.1 (by rfl) (by rfl),
   (json_recovery "3").1 (PyJson.num "3") (by rfl)⟩

/-- C3 counterexample: for the input `a{b}c` the direct parse and the
span parse both fail, and the error that escapes is the JSON decoder's,
carrying only the extracted span `{b}` — the raw text `a{b}c` does not
occur in the carried payload, contradicting the claim that this failure
carries the raw text for diagnostics. -/
theorem json_recovery_counterexample :
    parse_model_output "a\x7bb\x7dc" = .error (PyErr.jsonDecode "\x7bb\x7d")
    ∧ listContains "a\x7bb\x7dc".data "\x7bb\x7d".data = false :=
  ⟨rfl, rfl⟩

/-! ### Lemmas about the summarizer success path -/

theorem call_parses_ok (k : String) (hk : ¬ k = "") (oracle : String → String → String)
    (f : String → String → PyJson)
    (hf : ∀ sys usr, parse_model_output (oracle sys usr) = .ok (f sys usr))
    (sys usr : String) :
    _call_openai_json (some k) oracle sys usr = .ok (f sys usr, ⟨sys, usr⟩) := by
  simp only [_call_openai_json, _get_client, if_neg hk]
  rw [hf sys usr]

theorem mapLoop_parses_ok (k : String) (hk : ¬ k = "")
    (oracle : String → String → String) (f : String → String → PyJson)
    (hf : ∀ sys usr, parse_model_output (oracle sys usr) = .ok (f sys usr))
    (p q t c : String) (n : Nat) :
    ∀ chunks i, mapLoop (some k) oracle p q t c n i chunks
      = .ok (chunkValuesFrom f p q t c n i chunks, chunkCallsFrom p q t c n i chunks) := by
  intro chunks
  induction chunks with
  | nil => intro i; rfl
  | cons ch rest ih =>
      intro i
      simp only [mapLoop]
      rw [call_parses_ok k hk oracle f hf, ih (i + 1)]
      rfl

theorem chunkCallsFrom_length (p q t c : String) (n : Nat) :
    ∀ chunks i, (chunkCallsFrom p q t c n i chunks).length = chunks.length := by
  intro chunks
  induction chunks with
  | nil => intro i; rfl
  | cons ch rest ih => intro i; simp [chunkCallsFrom, ih (i + 1)]

theorem chunkCallsFrom_system (p q t c : String) (n : Nat) :
    ∀ chunks i cr, cr ∈ chunkCallsFrom p q t c n i chunks → cr.system = CHUNK_PROMPT := by
  intro chunks
  induction chunks with
  | nil => intro i cr h; simp [chunkCallsFrom] at h
  | cons ch rest ih =>
      intro i cr h
      rcases List.mem_cons.mp h with hc | hc
      · subst hc; rfl
      · exact ih (i + 1) cr hc

theorem chunkCallsFrom_get (p q t c : String) (n : Nat) :
    ∀ chunks i j ch, chunks.get? j = some ch →
      (chunkCallsFrom p q t c n i chunks).get? j
        = some ⟨CHUNK_PROMPT, buildChunkPayload p q t c (i + j) n ch⟩ := by
  intro chunks
  induction chunks with
  | nil => intro i j ch h; simp at h
  | cons x rest ih =>
      intro i j ch h
      cases j with
      | zero =>
          rw [List.get?_cons_zero] at h
          injection h with h
          subst h
          simp [chunkCallsFrom]
      | succ jj =>
          rw [List.get?_cons_succ] at h
          simp only [chunkCallsFrom, List.get?_cons_succ]
          rw [ih (i + 1) jj ch h]
          have hn : i + 1 + jj = i + (jj + 1) := by omega
          rw [hn]

theorem chunkValuesFrom_get (f : String → String → PyJson) (p q t c : String) (n : Nat) :
    ∀ chunks i j ch, chunks.get? j = some ch →
      (chunkValuesFrom f p q t c n i chunks).get? j
        = some (f CHUNK_PROMPT (buildChunkPayload p q t c (i + j) n ch)) := by
  intro chunks
  induction chunks with
  | nil => intro i j ch h; simp at h
  | cons x rest ih =>
      intro i j ch h
      cases j with
      | zero =>
          rw [List.get?_cons_zero] at h
          injection h with h
          subst h
          simp [chunkValuesFrom]
      | succ jj =>
          rw [List.get?_cons_succ] at h
          simp only [chunkValuesFrom, List.get?_cons_succ]
          rw [ih (i + 1) jj ch h]
          have hn : i + 1 + jj = i + (jj + 1) := by omega
          rw [hn]

/-! ### Claim theorems for the summarizer -/

/-- C6: modelling the LLM as an oracle whose responses all parse, the
summarizer performs one Map call per chunk in chunk order 1..n, each
carrying the chunk's ordinal and text, serializes all chunk summaries
into a single JSON array payload in the original chunk order, and
performs the Reduce call exactly once regardless of chunk count, as the
last call. -/
theorem map_reduce_order (k : String) (oracle : String → String → String)
    (f : String → String → PyJson) (text : List Char) (p q t c : String)
    (hk : ¬ k = "")
    (hf : ∀ sys usr, parse_model_output (oracle sys usr) = .ok (f sys usr)) :
    summarize_whatsapp_hybrid (some k) oracle text p q t c
      = .ok (f REDUCE_PROMPT (expectedReducePayload f p q t c text),
             expectedCalls f p q t c text)
    ∧ (expectedCalls f p q t c text).countP (fun cr => cr.system == REDUCE_PROMPT) = 1
    ∧ (expectedCalls f p q t c text).length = (_chunk_text text 9000).length + 1
    ∧ (∀ j ch, (_chunk_text text 9000).get? j = some ch →
        (expectedCalls f p q t c text).get? j
          = some ⟨CHUNK_PROMPT,
              buildChunkPayload p q t c (1 + j) (_chunk_text text 9000).length ch⟩
        ∧ (chunkValuesFrom f p q t c (_chunk_text text 9000).length 1
            (_chunk_text text 9000)).get? j
          = some (f CHUNK_PROMPT
              (buildChunkPayload p q t c (1 + j) (_chunk_text text 9000).length ch))) := by
  have hne : ¬ (CHUNK_PROMPT == REDUCE_PROMPT) = true := by decide
  refine ⟨?_, ?_, ?_, ?_⟩
  · simp only [summarize_whatsapp_hybrid]
    rw [mapLoop_parses_ok k hk oracle f hf]
    dsimp only
    rw [call_parses_ok k hk oracle f hf]
    rfl
  · simp only [expectedCalls]
    rw [List.countP_append]
    have h0 : (chunkCallsFrom p q t c (_chunk_text text 9000).length 1
        (_chunk_text text 9000)).countP (fun cr => cr.system == REDUCE_PROMPT) = 0 := by
      rw [List.countP_eq_zero]
      intro cr hcr
      rw [chunkCallsFrom_system p q t c _ _ _ cr hcr]
      exact hne
    rw [h0]
    simp
  · simp only [expectedCalls]
    rw [List.length_append, chunkCallsFrom_length]
    rfl
  · intro j ch h
    have hj : j < (_chunk_text text 9000).length := by
      rcases List.get?_eq_some.mp h with ⟨hj, _⟩
      exact hj
    constructor
    · simp only [expectedCalls]
      rw [List.get?_append (by rw [chunkCallsFrom_length]; exact hj)]
      rw [chunkCallsFrom_get p q t c _ _ 1 j ch h]
    · rw [chunkValuesFrom_get f p q t c _ _ 1 j ch h]

/-- C6 witness: a one-chunk text with a constant oracle whose response
is the empty JSON object. -/
theorem map_reduce_order_witness :
    summarize_whatsapp_hybrid (some "k") (fun _ _ => "\x7b\x7d") "hi".data
        "Bob" "Catch up" "Warm" "WhatsApp"
      = .ok (PyJson.obj [],
             expectedCalls (fun _ _ => PyJson.obj []) "Bob" "Catch up" "Warm" "WhatsApp"
               "hi".data) :=
  (map_reduce_order "k" (fun _ _ => "\x7b\x7d") (fun _ _ => PyJson.obj []) "hi".data
    "Bob" "Catch up" "Warm" "WhatsApp" (by decide) (fun _ _ => rfl)).1

/-- C7: with the credential absent (unset or empty), every summarization
request fails with the hard, human-readable
`RuntimeError("OPENAI_API_KEY is not set.")` before any provider call is
made — the result is this error for every oracle, so no provider
response is ever consulted — while preprocessing, which takes no
credential at all, still succeeds. -/
theorem missing_credential :
    (∀ (oracle : String → String → String) (text : List Char) (p q t c : String),
        summarize_whatsapp_hybrid none oracle text p q t c
          = .error (PyErr.runtime "OPENAI_API_KEY is not set.")
        ∧ summarize_whatsapp_hybrid (some "") oracle text p q t c
          = .error (PyErr.runtime "OPENAI_API_KEY is not set."))
    ∧ clean_whatsapp_text "hello".data 800 true true true
        = ("hello".data, ⟨1, 1, 0, 5⟩) := by
  refine ⟨?_, by rfl⟩
  intro oracle text p q t c
  obtain ⟨ch, rest, hchunks⟩ := List.exists_cons_of_ne_nil (chunk_text_ne_nil text 9000)
  constructor
  · simp only [summarize_whatsapp_hybrid]
    rw [hchunks]
    simp [mapLoop, _call_openai_json, _get_client]
  · simp only [summarize_whatsapp_hybrid]
    rw [hchunks]
    simp [mapLoop, _call_openai_json, _get_client]

end ARM
